import Mathlib

/-
Verification of the okarin session/recording core: a shallow embedding of
the signaling-message handler, the recording start/stop handler, the
voice-activity monitor and the room-id validation logic of the desktop
app, together with proofs of the specified properties.

Sources embedded:
- `RecordingPage` (ws.onmessage dispatch, handleToggleRecording,
  checkVoiceActivity, handleAudioInputChange / handleVideoInputChange,
  handleKeyDown, record-button guard);
- `JoinRoomPage` (handleJoinRoom validation, formatRoomId).

The zustand room store (`addParticipant`, `removeParticipant`,
`updateParticipant*`) is not part of the provided sources; those
operations are modelled from the specification and are marked as such.
-/

namespace Okarin

/-- A participant in the room store, as consumed by the RecordingPage:
`id`, `name`, `isHost`, `isSpeaking`, `isMuted`, `isVideoOn`. -/
structure Participant where
  id : String
  name : String
  isHost : Bool
  isSpeaking : Bool
  isMuted : Bool
  isVideoOn : Bool
deriving Repr, DecidableEq

/-- Room state visible to the signaling handler: the ordered participant
list of the room store and the `sessionToParticipantRef` map (modelled
extensionally by its `get`: the code only ever calls `get` and `set` on
it, never iterates it). -/
structure RoomState where
  participants : List Participant
  sessions : String → Option String

/-- Error raised by store operations that violate a core invariant. -/
inductive StoreError where
  | invalidOperation
deriving Repr, DecidableEq

/-- Modelled from the spec: the room store's `addParticipant` (store code
not under src/). "`addParticipant(p)` is idempotent: if `p.id` already
present, the call is a no-op rather than an error"; participants keep
insertion order. -/
def addParticipant (p : Participant) (st : RoomState) : RoomState :=
  if st.participants.any (fun q => q.id = p.id) then st
  else { st with participants := st.participants ++ [p] }

/-- Modelled from the spec: the room store's `removeParticipant` (store
code not under src/). "removing `\x22self\x22` is invalid and must fail with an
`InvalidOperation` error; removing an unknown ID is a no-op". -/
def removeParticipant (pid : String) (st : RoomState) :
    Except StoreError RoomState :=
  if pid = "self" then Except.error StoreError.invalidOperation
  else Except.ok
    { st with participants := st.participants.filter (fun p => p.id ≠ pid) }

/-- Modelled from the spec: the room store's `updateParticipantMuted`
(store code not under src/): sets `isMuted` on the participant with the
given id; an id that is not registered is a no-op. -/
def updateParticipantMuted (pid : String) (m : Bool) (st : RoomState) :
    RoomState :=
  { st with participants :=
      st.participants.map (fun p => if p.id = pid then { p with isMuted := m } else p) }

/-- Modelled from the spec: the room store's `updateParticipantVideo`
(store code not under src/): sets `isVideoOn` on the participant with the
given id; an id that is not registered is a no-op. -/
def updateParticipantVideo (pid : String) (v : Bool) (st : RoomState) :
    RoomState :=
  { st with participants :=
      st.participants.map (fun p => if p.id = pid then { p with isVideoOn := v } else p) }

/-- Modelled from the spec: the room store's `updateParticipantSpeaking`
(store code not under src/): sets `isSpeaking` on the participant with
the given id; an id that is not registered is a no-op. -/
def updateParticipantSpeaking (pid : String) (s : Bool) (st : RoomState) :
    RoomState :=
  { st with participants :=
      st.participants.map (fun p => if p.id = pid then { p with isSpeaking := s } else p) }

/-- A track reference carried in signaling messages (`{trackName, kind}`). -/
structure TrackRef where
  trackName : String
  kind : String
deriving Repr, DecidableEq

/-- One entry of an `existing-participants` snapshot. -/
structure PEntry where
  participantId : String
  participantName : String
  sessionId : String
  tracks : List TrackRef
deriving Repr, DecidableEq

/-- Incoming signaling messages handled by `ws.onmessage` in
RecordingPage (`cloudflare-session` is the session-announce). -/
inductive SignalMessage where
  | cloudflareSession (participantId participantName sessionId : String)
      (tracks : List TrackRef)
  | participantLeft (participantId : String)
  | trackState (participantId : String) (kind : String) (enabled : Bool)
  | existingParticipants (entries : List PEntry)
  | unknown
deriving Repr, DecidableEq

/-- `sessionToParticipantRef.current.set(key, value)` on the JS `Map`,
modelled extensionally: after the call, `get(key)` is `value` and every
other lookup is unchanged. -/
def sessionsSet (f : String → Option String) (k v : String) :
    String → Option String :=
  fun x => if x = k then some v else f x

/-- The remote participant record built at both `addParticipant` call
sites of `ws.onmessage` (cases `cloudflare-session` and
`existing-participants`): literal flags `isHost: false, isSpeaking:
false, isMuted: true, isVideoOn: false`. -/
def mkRemoteParticipant (pid pname : String) : Participant :=
  { id := pid, name := pname, isHost := false, isSpeaking := false,
    isMuted := true, isVideoOn := false }

/-- The loop body of the `existing-participants` case of `ws.onmessage`:
entries for the local participant are skipped (`continue`), every other
entry is added with the literal flags of the source. -/
def existingStep (selfId : String) (s : RoomState) (e : PEntry) : RoomState :=
  if e.participantId = selfId then s
  else addParticipant (mkRemoteParticipant e.participantId e.participantName) s

/-- The state effect of `ws.onmessage` in RecordingPage, with `selfId`
standing for `roomInfo.participantId`. Side effects that do not touch the
room store (subscription, DOM audio elements, the recorder interplay of
`participant-left`) are omitted; a store exception inside the handler is
caught by the surrounding try/catch, leaving the state unchanged. -/
def handleMessage (selfId : String) (st : RoomState) :
    SignalMessage → RoomState
  | SignalMessage.cloudflareSession pid pname sess _tracks =>
      if pid = selfId then st
      else
        addParticipant (mkRemoteParticipant pid pname)
          { st with sessions := sessionsSet st.sessions sess pid }
  | SignalMessage.participantLeft pid =>
      if pid = "" ∨ pid = selfId then st
      else
        match removeParticipant pid st with
        | Except.ok st' => st'
        | Except.error _ => st
  | SignalMessage.trackState pid kind enabled =>
      if kind = "video" then updateParticipantVideo pid enabled st
      else if kind = "audio" then updateParticipantMuted pid (!enabled) st
      else st
  | SignalMessage.existingParticipants entries =>
      entries.foldl (existingStep selfId) st
  | SignalMessage.unknown => st

/-- A participant as seen by `handleToggleRecording`: its id and whether
`participant.stream` is set (for `"self"` the stream used is
`localStream`, see `hasStream`). -/
structure RPart where
  id : String
  streamPresent : Bool
deriving Repr, DecidableEq

/-- The stream resolution of the recording loop:
`participant.id === 'self' ? localStream : participant.stream`, reduced
to presence of a stream. -/
def hasStream (localStreamPresent : Bool) (p : RPart) : Bool :=
  if p.id = "self" then localStreamPresent else p.streamPresent

/-- Recording state visible to `handleToggleRecording`: the recording
store's `isRecording` flag (the spec's `RecordingSession.isActive`), the
`participantsRecordingRef` set (as a list in insertion order), and
whether a failure has been surfaced via `setError`. -/
structure RecState where
  isActive : Bool
  recSet : List String
  failureReported : Bool
deriving Repr, DecidableEq

/-- `Set.add` on `participantsRecordingRef.current`: append if absent. -/
def addToSet (l : List String) (x : String) : List String :=
  if x ∈ l then l else l ++ [x]

/-- The per-participant loop of the start branch of
`handleToggleRecording`: participants without a stream are skipped
(`continue`); a failing `startRecording` throws, which aborts the loop
(the whole branch sits in a single try/catch), leaving the ids added so
far in the set. Returns the final set and whether the loop completed. -/
def startLoop (lsp : Bool) (opensOk : String → Bool) :
    List RPart → List String → List String × Bool
  | [], acc => (acc, true)
  | p :: rest, acc =>
      if hasStream lsp p = false then startLoop lsp opensOk rest acc
      else if opensOk p.id then startLoop lsp opensOk rest (addToSet acc p.id)
      else (acc, false)

/-- `participants.map((p) => mediaRecorder.stopRecording(p.id))`: the
close requests issued by the stop branch. `Promise.all` fires every call
before any settles, so the request list does not depend on which closes
succeed. -/
def stopCloseRequests (parts : List RPart) : List String :=
  parts.map (fun p => p.id)

/-- `handleToggleRecording` from RecordingPage.
Stop branch (`isRecording` true): awaits `Promise.all` of
`stopRecording(p.id)` over all participants, then the session finalize;
only if all of these succeed does it reach `stopRecording()` (store sets
`isRecording` false) and clear `participantsRecordingRef`; any rejection
jumps to the catch, which only reports the failure.
Start branch: `Recording.startRecording` (modelled by `sessionOk`), then
`startLoop`; only on full completion is `startRecording()` (store sets
`isRecording` true) reached; a throw mid-loop jumps to the catch, which
only reports the failure. -/
def handleToggleRecording (closeOk : String → Bool)
    (finalizeOk sessionOk lsp : Bool) (opensOk : String → Bool)
    (parts : List RPart) (st : RecState) : RecState :=
  if st.isActive then
    if parts.all (fun p => closeOk p.id) && finalizeOk then
      { isActive := false, recSet := [], failureReported := false }
    else { st with failureReported := true }
  else
    if sessionOk = false then { st with failureReported := true }
    else
      match startLoop lsp opensOk parts st.recSet with
      | (s, true) => { isActive := true, recSet := s,
                       failureReported := st.failureReported }
      | (s, false) => { st with recSet := s, failureReported := true }

/-- Whether every participant that resolves to a stream has a successful
recorder open: the condition under which `startLoop` completes. -/
def opensAllOk (lsp : Bool) (opensOk : String → Bool)
    (parts : List RPart) : Bool :=
  parts.all (fun p => !(hasStream lsp p) || opensOk p.id)

/-- `SPEAKING_THRESHOLD` from RecordingPage. -/
def SPEAKING_THRESHOLD : Nat := 25

/-- `VOICE_UPDATE_INTERVAL` (milliseconds) from RecordingPage. -/
def VOICE_UPDATE_INTERVAL : Nat := 100

/-- State carried between animation frames by `checkVoiceActivity`: the
`lastUpdateTime` captured by the closure. -/
structure VoiceState where
  lastUpdateTime : Nat
deriving Repr, DecidableEq

/-- The decision of one analysis step:
`dataArray.reduce((sum, v) => sum + v, 0) / dataArray.length >
SPEAKING_THRESHOLD`, stated over the integer samples without division
(`mean > 25` iff `sum > 25 * length`; an empty array gives NaN in JS,
which compares false, matching `25 * 0 < 0` being false). -/
def speakingDecision (data : List Nat) : Bool :=
  decide (SPEAKING_THRESHOLD * data.length < data.sum)

/-- One invocation of `checkVoiceActivity(timestamp)`: if less than
`VOICE_UPDATE_INTERVAL` has passed since `lastUpdateTime` the frame is
skipped (only rescheduling); otherwise `lastUpdateTime` is set to the
timestamp, the frequency data is read and the speaking flag reported via
`updateParticipantSpeaking('self', ...)`. The reported flag (if any) is
returned alongside the new state. -/
def checkVoiceActivity (st : VoiceState) (timestamp : Nat)
    (data : List Nat) : VoiceState × Option Bool :=
  if timestamp - st.lastUpdateTime < VOICE_UPDATE_INTERVAL then (st, none)
  else ({ lastUpdateTime := timestamp }, some (speakingDecision data))

/-- Running `checkVoiceActivity` over a sequence of animation frames
(each a timestamp with the frequency data the analyser would deliver at
that instant), collecting the analyses actually performed as
(timestamp, data, reported flag) triples. -/
def voiceRun (st : VoiceState) :
    List (Nat × List Nat) → List (Nat × List Nat × Bool)
  | [] => []
  | (t, d) :: fs =>
      match checkVoiceActivity st t d with
      | (st', none) => voiceRun st' fs
      | (st', some b) => (t, d, b) :: voiceRun st' fs

/-- UI events that can reach the recording toggle: the `handleKeyDown`
keys and the record-button click. The record button is rendered only
inside the `isHost && (...)` block, so a click event exists only for the
host; this is modelled by the click having no effect otherwise. -/
inductive UiEvent where
  | keyM
  | keyV
  | keyS
  | keyR
  | clickRecord
  | other
deriving Repr, DecidableEq

/-- Effect of one UI event on the local `isRecording` flag, from
`handleKeyDown` (case `'r'`: `if (isHost) handleToggleRecording()`) and
the record button (rendered only when `isHost`). The toggle is modelled
as flipping the flag, an upper bound on what `handleToggleRecording` can
do to it. -/
def uiStep (isHost : Bool) (rec : Bool) : UiEvent → Bool
  | UiEvent.keyR => if isHost then !rec else rec
  | UiEvent.clickRecord => if isHost then !rec else rec
  | _ => rec

/-- The local `isRecording` flag after a sequence of UI events, starting
from not recording. -/
def uiRun (isHost : Bool) (evs : List UiEvent) : Bool :=
  evs.foldl (uiStep isHost) false

/-- Character class of the room-id pattern `[A-Z0-9]`. -/
def isUpperAlnumChar (c : Char) : Bool :=
  (decide ('A' ≤ c) && decide (c ≤ 'Z')) || (decide ('0' ≤ c) && decide (c ≤ '9'))

/-- JS `String.prototype.toUpperCase`, on the character list. -/
def jsToUpper (s : List Char) : List Char :=
  s.map Char.toUpper

/-- JS `String.prototype.trim`: strip leading and trailing whitespace. -/
def jsTrim (s : List Char) : List Char :=
  ((s.dropWhile Char.isWhitespace).reverse.dropWhile Char.isWhitespace).reverse

/-- `roomIdPattern.test`, for the pattern `^[A-Z0-9]{6}$` of
`handleJoinRoom`. -/
def roomIdPatternTest (s : List Char) : Bool :=
  (s.length == 6) && s.all isUpperAlnumChar

/-- The input validation of `handleJoinRoom` in JoinRoomPage: both
fields non-empty after trimming, and
`roomIdPattern.test(roomId.trim().toUpperCase())`. -/
def validateJoinInputs (roomId userName : List Char) : Bool :=
  !(jsTrim roomId).isEmpty && !(jsTrim userName).isEmpty &&
    roomIdPatternTest (jsToUpper (jsTrim roomId))

/-- `formatRoomId` from JoinRoomPage: uppercase, drop every character
outside `[A-Z0-9]`, keep at most 6 characters; the result is stored as
the `roomId` state. -/
def formatRoomId (value : List Char) : List Char :=
  (((jsToUpper value).filter isUpperAlnumChar).take 6)

/-- A media track of the local stream, as manipulated by the device
hot-swap handlers: its kind and its `enabled` flag. -/
structure MediaTrack where
  kind : String
  enabled : Bool
deriving Repr, DecidableEq

/-- `stream.removeTrack(oldTrack)` where `oldTrack` is
`getAudioTracks()[0]` / `getVideoTracks()[0]`: remove the first track of
the kind, if any (`if (oldTrack)` guards the removal). -/
def removeFirstKind (k : String) : List MediaTrack → List MediaTrack
  | [] => []
  | t :: ts => if t.kind = k then ts else t :: removeFirstKind k ts

/-- `handleAudioInputChange` (success path), restricted to its effect on
the local stream: the first audio track is removed and stopped, the
newly acquired audio track is added, and its `enabled` is set to
`!self?.isMuted` (JS: `true` when there is no self participant). -/
def handleAudioInputChange (participants : List Participant)
    (stream : List MediaTrack) : List MediaTrack :=
  let en := match participants.find? (fun p => p.id = "self") with
    | some s => !s.isMuted
    | none => true
  removeFirstKind "audio" stream ++ [{ kind := "audio", enabled := en }]

/-- `handleVideoInputChange` (success path), restricted to its effect on
the local stream: the first video track is removed and stopped, the
newly acquired video track is added, and its `enabled` is set to
`self?.isVideoOn ?? true`. -/
def handleVideoInputChange (participants : List Participant)
    (stream : List MediaTrack) : List MediaTrack :=
  let en := match participants.find? (fun p => p.id = "self") with
    | some s => s.isVideoOn
    | none => true
  removeFirstKind "video" stream ++ [{ kind := "video", enabled := en }]

/-- Modelled from the spec: the room state at room entry (the store code
that registers the local participant is not under src/). "Exactly one
Participant has `id == \x22self\x22`"; name, host flag and initial media
flags come from the join/create handshake. -/
def initialRoom (selfName : String) (hostFlag muted videoOn : Bool) :
    RoomState :=
  { participants := [{ id := "self", name := selfName, isHost := hostFlag,
                       isSpeaking := false, isMuted := muted,
                       isVideoOn := videoOn }],
    sessions := fun _ => none }

/-- Room states reachable from an initial state by the operations that
touch the participant list: signaling messages folded by `ws.onmessage`
and the local `updateParticipant*` commands (mute/video toggles, voice
monitor, `onTrackAdded`). -/
inductive Reachable (selfId : String) : RoomState → Prop
  | init (nm : String) (hb m v : Bool) :
      Reachable selfId (initialRoom nm hb m v)
  | msg {st : RoomState} (m : SignalMessage) :
      Reachable selfId st → Reachable selfId (handleMessage selfId st m)
  | updMuted {st : RoomState} (pid : String) (b : Bool) :
      Reachable selfId st → Reachable selfId (updateParticipantMuted pid b st)
  | updVideo {st : RoomState} (pid : String) (b : Bool) :
      Reachable selfId st → Reachable selfId (updateParticipantVideo pid b st)
  | updSpeaking {st : RoomState} (pid : String) (b : Bool) :
      Reachable selfId st → Reachable selfId (updateParticipantSpeaking pid b st)

/-- Number of participants with id `"self"` in the room state. -/
def selfCount (st : RoomState) : Nat :=
  st.participants.countP (fun p => p.id = "self")

lemma updMap_no_match (l : List Participant) (pid : String)
    (f : Participant → Participant) (h : ∀ p ∈ l, p.id ≠ pid) :
    l.map (fun p => if p.id = pid then f p else p) = l := by
  induction l with
  | nil => rfl
  | cons a t ih =>
      simp only [List.map_cons]
      rw [if_neg (h a (List.mem_cons_self a t))]
      rw [ih (fun p hp => h p (List.mem_cons_of_mem a hp))]

/-- C3. A `track-state` message naming a participant id that is not
registered in the room state is a no-op: no participant is created and
the room state is unchanged (for every kind, including unknown ones). -/
theorem c3_track_state_unknown_participant_noop
    (selfId pid kind : String) (enabled : Bool) (st : RoomState)
    (h : ∀ p ∈ st.participants, p.id ≠ pid) :
    handleMessage selfId st (SignalMessage.trackState pid kind enabled) = st := by
  obtain ⟨ps, ss⟩ := st
  simp only [handleMessage]
  by_cases hv : kind = "video"
  · simp only [if_pos hv, updateParticipantVideo]
    simp [updMap_no_match ps pid _ h]
  · by_cases ha : kind = "audio"
    · simp only [if_neg hv, if_pos ha, updateParticipantMuted]
      simp [updMap_no_match ps pid _ h]
    · simp [if_neg hv, if_neg ha]

/-- Witness for C3: a `track-state` for unknown participant `"p2"`,
arriving before `p2` has joined, leaves a concrete one-participant room
state unchanged. -/
theorem c3_track_state_unknown_participant_noop_witness :
    handleMessage "srv-1" (initialRoom "Alice" true false true)
      (SignalMessage.trackState "p2" "audio" false)
      = initialRoom "Alice" true false true := by
  apply c3_track_state_unknown_participant_noop
  intro p hp
  simp only [initialRoom, List.mem_singleton] at hp
  subst hp
  decide

/-- C8. A non-host can never drive the local `isRecording` flag to true:
neither the `'r'` keyboard shortcut nor the record button (rendered only
for the host) reaches `handleToggleRecording`, so after any sequence of
UI events a non-host is still not recording — a locally started
recording implies the host role. -/
theorem c8_recording_start_requires_host (evs : List UiEvent) :
    uiRun false evs = false := by
  have hstep : ∀ (b : Bool) (e : UiEvent), uiStep false b e = b := by
    intro b e
    cases e <;> simp [uiStep]
  unfold uiRun
  induction evs with
  | nil => rfl
  | cons e t ih => rw [List.foldl_cons, hstep]; exact ih

/-- C9. If `handleJoinRoom` accepts the inputs then the trimmed,
uppercased room id matches `^[A-Z0-9]{6}$`; and `formatRoomId` maps any
input to an uppercase-alphanumeric string of length at most 6, so the
stored room id always has that shape. -/
theorem c9_room_id_validation (rid nm : List Char)
    (h : validateJoinInputs rid nm = true) :
    roomIdPatternTest (jsToUpper (jsTrim rid)) = true ∧
    ∀ v : List Char, (formatRoomId v).all isUpperAlnumChar = true ∧
      (formatRoomId v).length ≤ 6 := by
  constructor
  · simp only [validateJoinInputs, Bool.and_eq_true] at h
    exact h.2
  · intro v
    constructor
    · rw [List.all_eq_true]
      intro c hc
      have hc' : c ∈ (jsToUpper v).filter isUpperAlnumChar :=
        List.take_subset 6 _ hc
      exact (List.mem_filter.mp hc').2
    · calc (formatRoomId v).length
          ≤ 6 := by
            simp only [formatRoomId, List.length_take]
            exact min_le_left _ _

/-- Witness for C9: the raw input `" abc123 "` passes validation after
trimming and uppercasing, and the normalizer output for the raw input
`"ab-c1@23xyz"` is uppercase alphanumeric of length at most 6. -/
theorem c9_room_id_validation_witness :
    roomIdPatternTest (jsToUpper (jsTrim (" abc123 ".toList))) = true ∧
    ((formatRoomId ("ab-c1@23xyz".toList)).all isUpperAlnumChar = true ∧
      (formatRoomId ("ab-c1@23xyz".toList)).length ≤ 6) := by
  have h := c9_room_id_validation (" abc123 ".toList) ("Jane".toList) (by decide)
  exact ⟨h.1, h.2 ("ab-c1@23xyz".toList)⟩

lemma voiceRun_cons (st : VoiceState) (t : Nat) (d : List Nat)
    (fs : List (Nat × List Nat)) :
    voiceRun st ((t, d) :: fs)
      = if t - st.lastUpdateTime < VOICE_UPDATE_INTERVAL then voiceRun st fs
        else (t, d, speakingDecision d) :: voiceRun { lastUpdateTime := t } fs := by
  by_cases hc : t - st.lastUpdateTime < VOICE_UPDATE_INTERVAL
  · simp [voiceRun, checkVoiceActivity, hc]
  · simp [voiceRun, checkVoiceActivity, hc]

lemma voiceRun_head_lb :
    ∀ (fs : List (Nat × List Nat)) (st : VoiceState)
      (r : Nat × List Nat × Bool) (rest : List (Nat × List Nat × Bool)),
      voiceRun st fs = r :: rest →
      st.lastUpdateTime + VOICE_UPDATE_INTERVAL ≤ r.1 := by
  intro fs
  induction fs with
  | nil =>
      intro st r rest h
      simp [voiceRun] at h
  | cons f t ih =>
      intro st r rest h
      obtain ⟨ft, fd⟩ := f
      rw [voiceRun_cons] at h
      by_cases hc : ft - st.lastUpdateTime < VOICE_UPDATE_INTERVAL
      · rw [if_pos hc] at h
        exact ih st r rest h
      · rw [if_neg hc] at h
        simp only [List.cons.injEq] at h
        obtain ⟨h1, _⟩ := h
        rw [← h1]
        simp only [VOICE_UPDATE_INTERVAL] at hc ⊢
        omega

lemma voiceRun_chain :
    ∀ (fs : List (Nat × List Nat)) (st : VoiceState),
      List.Chain' (fun a b => a.1 + VOICE_UPDATE_INTERVAL ≤ b.1)
        (voiceRun st fs) := by
  intro fs
  induction fs with
  | nil => intro st; simp [voiceRun]
  | cons f t ih =>
      intro st
      obtain ⟨ft, fd⟩ := f
      rw [voiceRun_cons]
      by_cases hc : ft - st.lastUpdateTime < VOICE_UPDATE_INTERVAL
      · rw [if_pos hc]; exact ih st
      · rw [if_neg hc]
        rw [List.chain'_cons']
        refine ⟨?_, ih _⟩
        intro b hb
        cases hh : voiceRun { lastUpdateTime := ft } t with
        | nil => rw [hh] at hb; simp at hb
        | cons r rest =>
            rw [hh] at hb
            simp only [List.head?_cons, Option.mem_some_iff] at hb
            have hlb := voiceRun_head_lb t _ r rest hh
            rw [← hb]
            simpa using hlb

lemma voiceRun_mem_decision :
    ∀ (fs : List (Nat × List Nat)) (st : VoiceState)
      (r : Nat × List Nat × Bool), r ∈ voiceRun st fs →
      r.2.2 = speakingDecision r.2.1 := by
  intro fs
  induction fs with
  | nil =>
      intro st r h
      simp [voiceRun] at h
  | cons f t ih =>
      intro st r h
      obtain ⟨ft, fd⟩ := f
      rw [voiceRun_cons] at h
      by_cases hc : ft - st.lastUpdateTime < VOICE_UPDATE_INTERVAL
      · rw [if_pos hc] at h
        exact ih st r h
      · rw [if_neg hc] at h
        rcases List.mem_cons.mp h with h1 | h2
        · rw [h1]
        · exact ih _ r h2

lemma speakingDecision_iff_mean (d : List Nat) :
    speakingDecision d = true ↔
      (SPEAKING_THRESHOLD : ℚ) < (d.sum : ℚ) / (d.length : ℚ) := by
  unfold speakingDecision
  rw [decide_eq_true_iff]
  rcases Nat.eq_zero_or_pos d.length with h0 | hpos
  · have hd : d = [] := List.length_eq_zero.mp h0
    subst hd
    simp [SPEAKING_THRESHOLD]
  · have hq : (0 : ℚ) < (d.length : ℚ) := by exact_mod_cast hpos
    rw [lt_div_iff₀ hq]
    exact_mod_cast Iff.rfl

/-- C7. Over any sequence of animation frames, the voice monitor reports
the speaking flag as true exactly when the arithmetic mean of the 0–255
frequency samples exceeds `SPEAKING_THRESHOLD` (25), and it analyses at
most once per `VOICE_UPDATE_INTERVAL` (100 ms): any two consecutive
analyses are at least 100 ms apart even if frames arrive faster. -/
theorem c7_voice_activity_threshold_and_throttle
    (st : VoiceState) (frames : List (Nat × List Nat)) :
    List.Chain' (fun a b => a.1 + VOICE_UPDATE_INTERVAL ≤ b.1)
      (voiceRun st frames) ∧
    ∀ r ∈ voiceRun st frames,
      (r.2.2 = true ↔
        (SPEAKING_THRESHOLD : ℚ) < (r.2.1.sum : ℚ) / (r.2.1.length : ℚ)) := by
  refine ⟨voiceRun_chain frames st, ?_⟩
  intro r hr
  rw [voiceRun_mem_decision frames st r hr]
  exact speakingDecision_iff_mean r.2.1

/-- Witness for C7: a frame at 100 ms with two full-scale samples is
analysed (mean 255 > 25, so the flag is true and indeed the mean exceeds
the threshold), and the singleton report trivially satisfies the
throttling chain. -/
theorem c7_voice_activity_threshold_and_throttle_witness :
    List.Chain' (fun a b => a.1 + VOICE_UPDATE_INTERVAL ≤ b.1)
      (voiceRun ⟨0⟩ [(100, [255, 255])]) ∧
    (((100, ([255, 255], true)) : Nat × List Nat × Bool).2.2 = true ↔
      (SPEAKING_THRESHOLD : ℚ) <
        ((([255, 255] : List Nat).sum : ℚ) / (([255, 255] : List Nat).length : ℚ))) := by
  have h := c7_voice_activity_threshold_and_throttle ⟨0⟩ [(100, [255, 255])]
  refine ⟨h.1, h.2 (100, ([255, 255], true)) ?_⟩
  simp [voiceRun, checkVoiceActivity, speakingDecision,
    VOICE_UPDATE_INTERVAL, SPEAKING_THRESHOLD]

/-- C6. Device hot-swap preserves the enabled state: when a self
participant is registered, `handleAudioInputChange` gives the freshly
acquired audio track `enabled = !self.isMuted` (so swapping while muted
yields a disabled track) and `handleVideoInputChange` gives the new
video track `enabled = self.isVideoOn`; a swap never silently unmutes or
re-enables video. -/
theorem c6_hot_swap_preserves_enabled
    (participants : List Participant) (s : Participant)
    (stream : List MediaTrack)
    (h : participants.find? (fun p => p.id = "self") = some s) :
    handleAudioInputChange participants stream
      = removeFirstKind "audio" stream
          ++ [{ kind := "audio", enabled := !s.isMuted }] ∧
    handleVideoInputChange participants stream
      = removeFirstKind "video" stream
          ++ [{ kind := "video", enabled := s.isVideoOn }] := by
  constructor
  · simp [handleAudioInputChange, h]
  · simp [handleVideoInputChange, h]

/-- Witness for C6: with a muted self participant whose video is on, an
audio hot-swap yields a disabled new audio track and a video hot-swap
yields an enabled new video track. -/
theorem c6_hot_swap_preserves_enabled_witness :
    handleAudioInputChange
        [{ id := "self", name := "Alice", isHost := true, isSpeaking := false,
           isMuted := true, isVideoOn := true }]
        [{ kind := "audio", enabled := true }]
      = removeFirstKind "audio" [{ kind := "audio", enabled := true }]
          ++ [{ kind := "audio", enabled := false }] ∧
    handleVideoInputChange
        [{ id := "self", name := "Alice", isHost := true, isSpeaking := false,
           isMuted := true, isVideoOn := true }]
        [{ kind := "audio", enabled := true }]
      = removeFirstKind "video" [{ kind := "audio", enabled := true }]
          ++ [{ kind := "video", enabled := true }] :=
  c6_hot_swap_preserves_enabled
    [{ id := "self", name := "Alice", isHost := true, isSpeaking := false,
       isMuted := true, isVideoOn := true }]
    { id := "self", name := "Alice", isHost := true, isSpeaking := false,
      isMuted := true, isVideoOn := true }
    [{ kind := "audio", enabled := true }]
    (by decide)

lemma mem_addToSet (l : List String) (x y : String) :
    y ∈ addToSet l x ↔ y ∈ l ∨ y = x := by
  by_cases h : x ∈ l
  · simp only [addToSet, if_pos h]
    exact ⟨Or.inl, fun hy => hy.elim id (fun he => he ▸ h)⟩
  · simp [addToSet, if_neg h]

lemma startLoop_snd (lsp : Bool) (opensOk : String → Bool) :
    ∀ (parts : List RPart) (acc : List String),
      (startLoop lsp opensOk parts acc).2 = opensAllOk lsp opensOk parts := by
  intro parts
  induction parts with
  | nil => intro acc; simp [startLoop, opensAllOk]
  | cons p t ih =>
      intro acc
      cases hs : hasStream lsp p with
      | false =>
          simp only [startLoop, hs, if_true]
          rw [ih acc]
          simp [opensAllOk, hs]
      | true =>
          cases ho : opensOk p.id with
          | false =>
              simp only [startLoop, hs, ho]
              simp [opensAllOk, hs, ho]
          | true =>
              simp only [startLoop, hs, ho, if_true, Bool.true_eq_false,
                if_false]
              rw [ih]
              simp [opensAllOk, hs, ho]

lemma startLoop_mem (lsp : Bool) (opensOk : String → Bool) :
    ∀ (parts : List RPart) (acc : List String),
      opensAllOk lsp opensOk parts = true →
      ∀ x, x ∈ (startLoop lsp opensOk parts acc).1 ↔
        x ∈ acc ∨ ∃ p, p ∈ parts ∧ p.id = x ∧ hasStream lsp p = true := by
  intro parts
  induction parts with
  | nil => intro acc _ x; simp [startLoop]
  | cons p t ih =>
      intro acc hall x
      have hall' : opensAllOk lsp opensOk t = true := by
        simp only [opensAllOk, List.all_cons, Bool.and_eq_true] at hall
        exact hall.2
      cases hs : hasStream lsp p with
      | false =>
          simp only [startLoop, hs, if_true]
          rw [ih acc hall' x]
          constructor
          · rintro (hx | ⟨q, hq, hqx, hqs⟩)
            · exact Or.inl hx
            · exact Or.inr ⟨q, List.mem_cons_of_mem p hq, hqx, hqs⟩
          · rintro (hx | ⟨q, hq, hqx, hqs⟩)
            · exact Or.inl hx
            · rcases List.mem_cons.mp hq with rfl | hq'
              · rw [hs] at hqs; cases hqs
              · exact Or.inr ⟨q, hq', hqx, hqs⟩
      | true =>
          have ho : opensOk p.id = true := by
            simp only [opensAllOk, List.all_cons, Bool.and_eq_true] at hall
            have := hall.1
            rw [hs] at this
            simpa using this
          simp only [startLoop, hs, ho, if_true, Bool.true_eq_false, if_false]
          rw [ih (addToSet acc p.id) hall' x, mem_addToSet]
          constructor
          · rintro ((hx | hx) | ⟨q, hq, hqx, hqs⟩)
            · exact Or.inl hx
            · exact Or.inr ⟨p, List.mem_cons_self p t, hx.symm, hs⟩
            · exact Or.inr ⟨q, List.mem_cons_of_mem p hq, hqx, hqs⟩
          · rintro (hx | ⟨q, hq, hqx, hqs⟩)
            · exact Or.inl (Or.inl hx)
            · rcases List.mem_cons.mp hq with rfl | hq'
              · exact Or.inl (Or.inr hqx.symm)
              · exact Or.inr ⟨q, hq', hqx, hqs⟩

/-- Counterexample for C1: three participants, all with streams, and a
recorder that fails to open for `"p2"`. The claim requires the session
to still start (`isActive = true`, two active entries); the code aborts
the start instead — `isActive` is false and only `"self"` (processed
before the failure) is left in the set, `"p3"` never being attempted. -/
theorem c1_start_recording_counterexample :
    (handleToggleRecording (fun _ => true) true true true
        (fun pid => decide (pid ≠ "p2"))
        [{ id := "self", streamPresent := true },
         { id := "p2", streamPresent := true },
         { id := "p3", streamPresent := true }]
        { isActive := false, recSet := [], failureReported := false }).isActive
      = false ∧
    (handleToggleRecording (fun _ => true) true true true
        (fun pid => decide (pid ≠ "p2"))
        [{ id := "self", streamPresent := true },
         { id := "p2", streamPresent := true },
         { id := "p3", streamPresent := true }]
        { isActive := false, recSet := [], failureReported := false }).recSet
      = ["self"] := by
  decide

/-- C1 (amended). The start branch of `handleToggleRecording` is
partial-failure tolerant only towards participants without a resolvable
media source (those are skipped); a recorder open failure aborts the
start: from a non-recording state, the resulting `isActive` equals
"session open succeeded and every participant with a stream opened", a
failure is reported exactly otherwise, and on success the active set is
exactly the participants with a resolvable stream. -/
theorem c1_start_recording_aborts_on_open_failure
    (closeOk : String → Bool) (finalizeOk sessionOk lsp : Bool)
    (opensOk : String → Bool) (parts : List RPart) :
    (handleToggleRecording closeOk finalizeOk sessionOk lsp opensOk parts
        { isActive := false, recSet := [], failureReported := false }).isActive
      = (sessionOk && opensAllOk lsp opensOk parts) ∧
    (handleToggleRecording closeOk finalizeOk sessionOk lsp opensOk parts
        { isActive := false, recSet := [], failureReported := false }).failureReported
      = !(sessionOk && opensAllOk lsp opensOk parts) ∧
    ((sessionOk && opensAllOk lsp opensOk parts) = true →
      ∀ x, x ∈ (handleToggleRecording closeOk finalizeOk sessionOk lsp opensOk
          parts { isActive := false, recSet := [], failureReported := false }).recSet
        ↔ ∃ p, p ∈ parts ∧ p.id = x ∧ hasStream lsp p = true) := by
  have hsnd := startLoop_snd lsp opensOk parts []
  rcases hq : startLoop lsp opensOk parts [] with ⟨s, b⟩
  rw [hq] at hsnd
  simp only at hsnd
  subst hsnd
  cases sessionOk with
  | false => simp [handleToggleRecording]
  | true =>
      cases hall : opensAllOk lsp opensOk parts with
      | false =>
          rw [hall] at hq
          simp [handleToggleRecording, hq, hall]
      | true =>
          rw [hall] at hq
          refine ⟨?_, ?_, ?_⟩
          · simp [handleToggleRecording, hq, hall]
          · simp [handleToggleRecording, hq, hall]
          · intro _ x
            have hm := startLoop_mem lsp opensOk parts [] hall x
            rw [hq] at hm
            simp only [List.not_mem_nil, false_or] at hm
            simp only [handleToggleRecording, Bool.false_eq_true, if_false,
              hq]
            simpa using hm

/-- Witness for C1 (amended): with a local stream, a streamless remote
`"p2"` and all opens succeeding, the session starts, the failure flag is
clear, and the set contains `"self"` but not the streamless `"p2"`. -/
theorem c1_start_recording_aborts_on_open_failure_witness :
    (handleToggleRecording (fun _ => true) true true true (fun _ => true)
        [{ id := "self", streamPresent := false },
         { id := "p2", streamPresent := false }]
        { isActive := false, recSet := [], failureReported := false }).isActive
      = (true && opensAllOk true (fun _ => true)
          [{ id := "self", streamPresent := false },
           { id := "p2", streamPresent := false }]) ∧
    ("self" ∈ (handleToggleRecording (fun _ => true) true true true (fun _ => true)
        [{ id := "self", streamPresent := false },
         { id := "p2", streamPresent := false }]
        { isActive := false, recSet := [], failureReported := false }).recSet
      ↔ ∃ p, p ∈ [({ id := "self", streamPresent := false } : RPart),
                   { id := "p2", streamPresent := false }] ∧
          p.id = "self" ∧ hasStream true p = true) := by
  have h := c1_start_recording_aborts_on_open_failure (fun _ => true) true true
    true (fun _ => true)
    [{ id := "self", streamPresent := false },
     { id := "p2", streamPresent := false }]
  exact ⟨h.1, h.2.2 (by decide) "self"⟩

/-- Counterexample for C2: two participants, the close for `"p2"`
failing. The claim requires `isActive` to be set to false
unconditionally; in the code the rejection of `Promise.all` skips the
store's `stopRecording()` call, so `isActive` remains true. -/
theorem c2_stop_recording_counterexample :
    (handleToggleRecording (fun pid => decide (pid ≠ "p2")) true true true
        (fun _ => true)
        [{ id := "self", streamPresent := true },
         { id := "p2", streamPresent := true }]
        { isActive := true, recSet := ["self", "p2"],
          failureReported := false }).isActive = true := by
  decide

/-- C2 (amended). The stop branch issues a close request for every
participant regardless of individual failures (`Promise.all` fires all
calls up front), but `isActive` becomes false only when every close and
the session finalize succeed; if any of them fails, the state is left
unchanged except that the failure is reported — `isActive` stays true. -/
theorem c2_stop_recording_failure_keeps_active
    (closeOk : String → Bool) (finalizeOk sessionOk lsp : Bool)
    (opensOk : String → Bool) (parts : List RPart) (st : RecState)
    (h : st.isActive = true) :
    ((handleToggleRecording closeOk finalizeOk sessionOk lsp opensOk parts
        st).isActive = false
      ↔ (parts.all (fun p => closeOk p.id) && finalizeOk) = true) ∧
    ((parts.all (fun p => closeOk p.id) && finalizeOk) = false →
      handleToggleRecording closeOk finalizeOk sessionOk lsp opensOk parts st
        = { st with failureReported := true }) ∧
    (∀ p ∈ parts, p.id ∈ stopCloseRequests parts) := by
  refine ⟨?_, ?_, ?_⟩
  · cases hc : (parts.all (fun p => closeOk p.id) && finalizeOk) with
    | true => simp [handleToggleRecording, h, hc]
    | false => simp [handleToggleRecording, h, hc]
  · intro hc
    simp [handleToggleRecording, h, hc]
  · intro p hp
    simp only [stopCloseRequests]
    exact List.mem_map_of_mem (fun q => q.id) hp

/-- Witness for C2 (amended): with every close succeeding, stopping from
an active state does set `isActive` false, and the close request for
`"self"` is among the issued requests. -/
theorem c2_stop_recording_failure_keeps_active_witness :
    ((handleToggleRecording (fun _ => true) true true true (fun _ => true)
        [{ id := "self", streamPresent := true }]
        { isActive := true, recSet := ["self"],
          failureReported := false }).isActive = false
      ↔ (([({ id := "self", streamPresent := true } : RPart)].all
            (fun p => (fun _ => true) p.id) && true) = true)) ∧
    ({ id := "self", streamPresent := true } : RPart).id
      ∈ stopCloseRequests [{ id := "self", streamPresent := true }] := by
  have h := c2_stop_recording_failure_keeps_active (fun _ => true) true true
    true (fun _ => true) [{ id := "self", streamPresent := true }]
    { isActive := true, recSet := ["self"], failureReported := false } rfl
  exact ⟨h.1, h.2.2 { id := "self", streamPresent := true } (by decide)⟩

lemma addParticipant_any (p : Participant) (st : RoomState) :
    (addParticipant p st).participants.any (fun q => q.id = p.id) = true := by
  unfold addParticipant
  by_cases h : st.participants.any (fun q => q.id = p.id) = true
  · rw [if_pos h]; exact h
  · rw [if_neg h]
    simp [List.any_append]

lemma addParticipant_of_any (p : Participant) (st : RoomState)
    (h : st.participants.any (fun q => q.id = p.id) = true) :
    addParticipant p st = st := by
  unfold addParticipant
  rw [if_pos h]

lemma addParticipant_preserves_any (p : Participant) (x : String)
    (st : RoomState) (h : st.participants.any (fun q => q.id = x) = true) :
    (addParticipant p st).participants.any (fun q => q.id = x) = true := by
  unfold addParticipant
  by_cases hc : st.participants.any (fun q => q.id = p.id) = true
  · rw [if_pos hc]; exact h
  · rw [if_neg hc]
    simp [List.any_append, h]

lemma addParticipant_sessions (p : Participant) (st : RoomState) :
    (addParticipant p st).sessions = st.sessions := by
  unfold addParticipant
  by_cases hc : st.participants.any (fun q => q.id = p.id) = true
  · rw [if_pos hc]
  · rw [if_neg hc]

lemma existingStep_preserves_any (selfId : String) (e : PEntry) (x : String)
    (s : RoomState) (h : s.participants.any (fun q => q.id = x) = true) :
    (existingStep selfId s e).participants.any (fun q => q.id = x) = true := by
  unfold existingStep
  by_cases hc : e.participantId = selfId
  · rw [if_pos hc]; exact h
  · rw [if_neg hc]
    exact addParticipant_preserves_any _ x s h

lemma foldl_existingStep_preserves_any (selfId : String) (x : String) :
    ∀ (entries : List PEntry) (s : RoomState),
      s.participants.any (fun q => q.id = x) = true →
      ((entries.foldl (existingStep selfId) s).participants.any
        (fun q => q.id = x)) = true := by
  intro entries
  induction entries with
  | nil => intro s h; exact h
  | cons e t ih =>
      intro s h
      rw [List.foldl_cons]
      exact ih _ (existingStep_preserves_any selfId e x s h)

lemma foldl_existingStep_registers (selfId : String) :
    ∀ (entries : List PEntry) (s : RoomState) (e : PEntry), e ∈ entries →
      e.participantId ≠ selfId →
      ((entries.foldl (existingStep selfId) s).participants.any
        (fun q => q.id = e.participantId)) = true := by
  intro entries
  induction entries with
  | nil => intro s e he; cases he
  | cons a t ih =>
      intro s e he hne
      rw [List.foldl_cons]
      rcases List.mem_cons.mp he with rfl | he'
      · apply foldl_existingStep_preserves_any
        unfold existingStep
        rw [if_neg hne]
        exact addParticipant_any _ s
      · exact ih _ e he' hne

lemma foldl_existingStep_noop (selfId : String) :
    ∀ (entries : List PEntry) (s : RoomState),
      (∀ e ∈ entries, e.participantId ≠ selfId →
        s.participants.any (fun q => q.id = e.participantId) = true) →
      entries.foldl (existingStep selfId) s = s := by
  intro entries
  induction entries with
  | nil => intro s _; rfl
  | cons a t ih =>
      intro s h
      rw [List.foldl_cons]
      have hstep : existingStep selfId s a = s := by
        unfold existingStep
        by_cases hc : a.participantId = selfId
        · rw [if_pos hc]
        · rw [if_neg hc]
          exact addParticipant_of_any _ s (h a (List.mem_cons_self a t) hc)
      rw [hstep]
      exact ih s (fun e he hne => h e (List.mem_cons_of_mem a he) hne)

/-- C4. Adding a participant is idempotent at the message level:
applying the same `cloudflare-session` announce twice yields the same
room state as applying it once, and likewise for an
`existing-participants` snapshot — the duplicate delivery is a no-op,
not an error. -/
theorem c4_session_announce_idempotent
    (selfId pid pname sess : String) (tracks : List TrackRef)
    (entries : List PEntry) (st : RoomState) :
    handleMessage selfId
        (handleMessage selfId st
          (SignalMessage.cloudflareSession pid pname sess tracks))
        (SignalMessage.cloudflareSession pid pname sess tracks)
      = handleMessage selfId st
          (SignalMessage.cloudflareSession pid pname sess tracks) ∧
    handleMessage selfId
        (handleMessage selfId st (SignalMessage.existingParticipants entries))
        (SignalMessage.existingParticipants entries)
      = handleMessage selfId st
          (SignalMessage.existingParticipants entries) := by
  constructor
  · by_cases hp : pid = selfId
    · simp [handleMessage, hp]
    · simp only [handleMessage, if_neg hp]
      have hsess :
          sessionsSet
              (addParticipant (mkRemoteParticipant pid pname)
                { st with sessions := sessionsSet st.sessions sess pid }).sessions
              sess pid
            = (addParticipant (mkRemoteParticipant pid pname)
                { st with sessions := sessionsSet st.sessions sess pid }).sessions := by
        rw [addParticipant_sessions]
        funext x
        by_cases hx : x = sess <;> simp [sessionsSet, hx]
      rw [hsess]
      exact addParticipant_of_any _ _ (addParticipant_any _ _)
  · simp only [handleMessage]
    apply foldl_existingStep_noop
    intro e he hne
    exact foldl_existingStep_registers selfId entries st e he hne

lemma countP_self_map_update (l : List Participant)
    (f : Participant → Participant) (hf : ∀ p, (f p).id = p.id) :
    (l.map f).countP (fun p => p.id = "self")
      = l.countP (fun p => p.id = "self") := by
  induction l with
  | nil => rfl
  | cons a t ih =>
      simp only [List.map_cons, List.countP_cons, ih, hf]

lemma selfCount_updateParticipantMuted (pid : String) (b : Bool)
    (st : RoomState) :
    selfCount (updateParticipantMuted pid b st) = selfCount st := by
  unfold updateParticipantMuted selfCount
  apply countP_self_map_update
  intro p
  by_cases hp : p.id = pid
  · rw [if_pos hp]
  · rw [if_neg hp]

lemma selfCount_updateParticipantVideo (pid : String) (b : Bool)
    (st : RoomState) :
    selfCount (updateParticipantVideo pid b st) = selfCount st := by
  unfold updateParticipantVideo selfCount
  apply countP_self_map_update
  intro p
  by_cases hp : p.id = pid
  · rw [if_pos hp]
  · rw [if_neg hp]

lemma selfCount_updateParticipantSpeaking (pid : String) (b : Bool)
    (st : RoomState) :
    selfCount (updateParticipantSpeaking pid b st) = selfCount st := by
  unfold updateParticipantSpeaking selfCount
  apply countP_self_map_update
  intro p
  by_cases hp : p.id = pid
  · rw [if_pos hp]
  · rw [if_neg hp]

lemma selfCount_addParticipant (p : Participant) (st : RoomState)
    (h : selfCount st = 1) : selfCount (addParticipant p st) = 1 := by
  unfold addParticipant
  by_cases hany : st.participants.any (fun q => q.id = p.id) = true
  · rw [if_pos hany]; exact h
  · rw [if_neg hany]
    by_cases hps : p.id = "self"
    · exfalso
      have hpos : 0 < st.participants.countP (fun q => q.id = "self") := by
        unfold selfCount at h; omega
      obtain ⟨q, hq, hq'⟩ := List.countP_pos_iff.mp hpos
      apply hany
      rw [List.any_eq_true]
      refine ⟨q, hq, ?_⟩
      rw [hps]
      exact hq'
    · unfold selfCount at h ⊢
      simp only [List.countP_append, h]
      simp [List.countP_cons, hps]

lemma selfCount_existingStep (selfId : String) (e : PEntry) (s : RoomState)
    (h : selfCount s = 1) : selfCount (existingStep selfId s e) = 1 := by
  unfold existingStep
  by_cases hc : e.participantId = selfId
  · rw [if_pos hc]; exact h
  · rw [if_neg hc]
    exact selfCount_addParticipant _ s h

lemma countP_self_filter_ne (pid : String) (hne : pid ≠ "self") :
    ∀ l : List Participant,
      (l.filter (fun p => p.id ≠ pid)).countP (fun p => p.id = "self")
        = l.countP (fun p => p.id = "self") := by
  intro l
  induction l with
  | nil => rfl
  | cons a t ih =>
      rw [List.filter_cons]
      by_cases ha : a.id = pid
      · rw [if_neg (by simp [ha])]
        rw [ih, List.countP_cons]
        have hs : (decide (a.id = "self")) = false := by
          simp only [decide_eq_false_iff_not]
          rw [ha]; exact hne
        rw [hs]
        simp
      · rw [if_pos (by simp [ha])]
        rw [List.countP_cons, List.countP_cons, ih]

lemma selfCount_handleMessage (selfId : String) (st : RoomState)
    (m : SignalMessage) (h : selfCount st = 1) :
    selfCount (handleMessage selfId st m) = 1 := by
  cases m with
  | cloudflareSession pid pname sess tracks =>
      simp only [handleMessage]
      by_cases hp : pid = selfId
      · rw [if_pos hp]; exact h
      · rw [if_neg hp]
        exact selfCount_addParticipant _ _ h
  | participantLeft pid =>
      simp only [handleMessage]
      by_cases hp : pid = "" ∨ pid = selfId
      · rw [if_pos hp]; exact h
      · rw [if_neg hp]
        unfold removeParticipant
        by_cases hs : pid = "self"
        · rw [if_pos hs]; exact h
        · rw [if_neg hs]
          simp only [selfCount] at h ⊢
          rw [countP_self_filter_ne pid hs st.participants]
          exact h
  | trackState pid kind enabled =>
      simp only [handleMessage]
      by_cases hv : kind = "video"
      · rw [if_pos hv, selfCount_updateParticipantVideo]
        exact h
      · rw [if_neg hv]
        by_cases ha : kind = "audio"
        · rw [if_pos ha, selfCount_updateParticipantMuted]
          exact h
        · rw [if_neg ha]; exact h
  | existingParticipants entries =>
      simp only [handleMessage]
      induction entries generalizing st with
      | nil => exact h
      | cons e t ih =>
          rw [List.foldl_cons]
          exact ih _ (selfCount_existingStep selfId e st h)
  | unknown => exact h

/-- C5. In every reachable room state exactly one participant has id
`"self"` (no signaling message or local command removes or duplicates
the local participant), and removing `"self"` always fails with
`InvalidOperation` while removal of an unknown id elsewhere in the fold
is a no-op by construction of `removeParticipant`. -/
theorem c5_exactly_one_self (selfId : String) (st : RoomState)
    (h : Reachable selfId st) :
    selfCount st = 1 ∧
    removeParticipant "self" st
      = Except.error StoreError.invalidOperation := by
  constructor
  · induction h with
    | init nm hb m v => simp [selfCount, initialRoom]
    | msg m _ ih => exact selfCount_handleMessage _ _ m ih
    | updMuted pid b _ ih =>
        rw [selfCount_updateParticipantMuted]; exact ih
    | updVideo pid b _ ih =>
        rw [selfCount_updateParticipantVideo]; exact ih
    | updSpeaking pid b _ ih =>
        rw [selfCount_updateParticipantSpeaking]; exact ih
  · unfold removeParticipant
    rw [if_pos rfl]

/-- Witness for C5: a concrete reachable state — the initial room after
a remote announce for `"p2"` — has exactly one `"self"` participant and
rejects `removeParticipant("self")` with `InvalidOperation`. -/
theorem c5_exactly_one_self_witness :
    selfCount
        (handleMessage "srv-1" (initialRoom "Alice" true false true)
          (SignalMessage.cloudflareSession "p2" "Bob" "sess-2" [])) = 1 ∧
    removeParticipant "self"
        (handleMessage "srv-1" (initialRoom "Alice" true false true)
          (SignalMessage.cloudflareSession "p2" "Bob" "sess-2" []))
      = Except.error StoreError.invalidOperation :=
  c5_exactly_one_self "srv-1" _
    (Reachable.msg (SignalMessage.cloudflareSession "p2" "Bob" "sess-2" [])
      (Reachable.init "Alice" true false true))

/-- C10. A remote participant registered by a `cloudflare-session`
announce or an `existing-participants` entry with a fresh id is appended
with the literal flags `isHost = false`, `isSpeaking = false`,
`isMuted = true`, `isVideoOn = false`, regardless of the tracks carried
by the message. -/
theorem c10_remote_participant_initial_flags
    (selfId pid pname sess sess2 : String)
    (tracks tracks2 : List TrackRef) (st : RoomState)
    (hne : pid ≠ selfId)
    (hfresh : ∀ p ∈ st.participants, p.id ≠ pid) :
    (handleMessage selfId st
        (SignalMessage.cloudflareSession pid pname sess tracks)).participants
      = st.participants
          ++ [{ id := pid, name := pname, isHost := false,
                isSpeaking := false, isMuted := true, isVideoOn := false }] ∧
    (handleMessage selfId st
        (SignalMessage.existingParticipants
          [{ participantId := pid, participantName := pname,
             sessionId := sess2, tracks := tracks2 }])).participants
      = st.participants
          ++ [{ id := pid, name := pname, isHost := false,
                isSpeaking := false, isMuted := true, isVideoOn := false }] := by
  have hany : st.participants.any (fun q => q.id = pid) = false := by
    rw [List.any_eq_false]
    intro p hp
    simpa using hfresh p hp
  constructor
  · simp only [handleMessage, if_neg hne]
    unfold addParticipant
    rw [if_neg (by simp only [mkRemoteParticipant]; rw [hany]; exact Bool.false_ne_true)]
    rfl
  · simp only [handleMessage, List.foldl_cons, List.foldl_nil]
    unfold existingStep
    rw [if_neg (by simpa using hne)]
    unfold addParticipant
    rw [if_neg (by simp only [mkRemoteParticipant]; rw [hany]; exact Bool.false_ne_true)]
    rfl

/-- Witness for C10: announcing fresh participant `"p2"` (with a video
track in the message) to the initial room appends `p2` muted, with video
off, non-host and not speaking. -/
theorem c10_remote_participant_initial_flags_witness :
    (handleMessage "srv-1" (initialRoom "Alice" true false true)
        (SignalMessage.cloudflareSession "p2" "Bob" "sess-2"
          [{ trackName := "t-video", kind := "video" }])).participants
      = (initialRoom "Alice" true false true).participants
          ++ [{ id := "p2", name := "Bob", isHost := false,
                isSpeaking := false, isMuted := true, isVideoOn := false }] ∧
    (handleMessage "srv-1" (initialRoom "Alice" true false true)
        (SignalMessage.existingParticipants
          [{ participantId := "p2", participantName := "Bob",
             sessionId := "sess-2", tracks := [] }])).participants
      = (initialRoom "Alice" true false true).participants
          ++ [{ id := "p2", name := "Bob", isHost := false,
                isSpeaking := false, isMuted := true, isVideoOn := false }] := by
  apply c10_remote_participant_initial_flags "srv-1" "p2" "Bob" "sess-2"
    "sess-2" [{ trackName := "t-video", kind := "video" }] []
    (initialRoom "Alice" true false true) (by decide)
  intro p hp
  simp only [initialRoom, List.mem_singleton] at hp
  subst hp
  decide

end Okarin
